import Mathlib

set_option maxRecDepth 100000

/-!
Verification development for the arrus file-backed ultrasound device emulator.

The repository provides two headers:
  * `src/arrus/core/devices/file/FileImpl.h` — the acquisition engine
    (state machine, producer/consumer threads, staged slice parameters);
  * `src/arrus/core/devices/us4r/common.h` — the RX-aperture splitter
    `splitRxAperturesIfNecessary` and its `SplitResult`.

The method bodies are not part of the sources, only their declarations and
documentation comments; the behaviour below is therefore modelled from the
specification (producer protocol, parameter validation, splitter algorithm),
with the header declarations fixing the state fields
(`state`, `pendingSliceBegin`, `pendingSliceEnd`, `txBegin`, `txEnd`, the
dataset and cursor) and their default initializers.

Concurrency is modelled sequentially: the spec's ordering guarantee (one
producer, FIFO buffer, frames reach the observer in production order) lets a
run `upload; start; N triggers; stop` be represented as a function from the
engine state to the list of frames the consumer observes, in order.
-/

namespace Arrus

/-- Modelled from the spec: the error enumeration of §7 of the specification
("Error kinds"). -/
inductive ArrusError where
  | INVALID_STATE
  | SCHEME_INCOMPATIBLE
  | DATASET_SHAPE_MISMATCH
  | DATASET_IO
  | DATASET_EMPTY
  | UNKNOWN_PARAMETER
  | OUT_OF_RANGE
  | INVALID_SLICE
  | INCONSISTENT_INPUT
  | MAPPING_OUT_OF_RANGE
deriving DecidableEq, Repr

/-- Engine state, from `FileImpl::State` in `FileImpl.h` (line 34). -/
inductive EngineState where
  | STARTED
  | STOPPED
deriving DecidableEq, Repr

/-- A frame: a tensor of signed 16-bit samples, modelled as its flat sample
list (`using Frame = std::vector<int16_t>` in `FileImpl.h` line 53). -/
abbrev Frame := List Int

/-- Modelled from the spec: the state of a `FileImpl` engine.  The fields
mirror the member declarations of `FileImpl.h` (lines 59, 65, 73–75):
`state`, `dataset`, `pendingSliceBegin`, `pendingSliceEnd`, `txBegin`,
`txEnd`.  `cursor` is the dataset cursor of §3 ("Dataset"), `frameSize`
the frame shape fixed at upload, `sequenceLength` the scheme's sequence
length, `schemeUploaded` whether `upload` has succeeded, and
`producerRunning` / `consumerRunning` whether the two worker threads exist
(§3 invariant 4: while STOPPED no worker thread exists). -/
structure FileImpl where
  state : EngineState
  dataset : List Frame
  frameSize : Nat
  sequenceLength : Nat
  cursor : Nat
  txBegin : Int
  txEnd : Int
  pendingSliceBegin : Option Int
  pendingSliceEnd : Option Int
  schemeUploaded : Bool
  producerRunning : Bool
  consumerRunning : Bool
deriving DecidableEq, Repr

namespace FileImpl

/-- A freshly constructed engine: `FileImpl.h` gives the default member
initializer `State state{State::STOPPED}` (line 59); the two pending slice
optionals (lines 73–74) default-construct empty; no scheme is uploaded and
no worker thread exists. -/
def init (dataset : List Frame) (frameSize : Nat) : FileImpl :=
  { state := EngineState.STOPPED
    dataset := dataset
    frameSize := frameSize
    sequenceLength := 0
    cursor := 0
    txBegin := 0
    txEnd := 0
    pendingSliceBegin := none
    pendingSliceEnd := none
    schemeUploaded := false
    producerRunning := false
    consumerRunning := false }

/-- Modelled from the spec: `upload(scheme)` (§4.3).  Precondition: engine
STOPPED, otherwise `INVALID_STATE`.  On success it initializes
`(txBegin, txEnd) = (0, sequenceLength)` and the pending slots to empty.
The scheme is abstracted to its sequence length. -/
def upload (s : FileImpl) (seqLen : Nat) : FileImpl × Option ArrusError :=
  if s.state = EngineState.STOPPED then
    ({ s with sequenceLength := seqLen
              txBegin := 0
              txEnd := (seqLen : Int)
              pendingSliceBegin := none
              pendingSliceEnd := none
              schemeUploaded := true }, none)
  else (s, some ArrusError.INVALID_STATE)

/-- Modelled from the spec: `start()` (§4.3).  Precondition: a scheme is
uploaded and the state is STOPPED; spawns the producer and consumer threads
and transitions to STARTED.  Re-entry returns `INVALID_STATE`. -/
def start (s : FileImpl) : FileImpl × Option ArrusError :=
  if s.state = EngineState.STARTED then (s, some ArrusError.INVALID_STATE)
  else if s.schemeUploaded then
    ({ s with state := EngineState.STARTED
              producerRunning := true
              consumerRunning := true }, none)
  else (s, some ArrusError.INVALID_STATE)

/-- Modelled from the spec: `stop()` (§4.3).  On a STARTED engine it
transitions STARTED→STOPPED, shuts the buffer down and joins both worker
threads before returning (so after `stop` neither thread is running);
on an already-STOPPED engine it is idempotent and changes nothing. -/
def stop (s : FileImpl) : FileImpl :=
  if s.state = EngineState.STARTED then
    { s with state := EngineState.STOPPED
             producerRunning := false
             consumerRunning := false }
  else s

/-- Recognized parameter key staging `txBegin` (§6, "Parameters wire
format"). -/
def keyBegin : String := "sequence:tx:aperture:center_element:slice_begin"

/-- Recognized parameter key staging `txEnd` (§6, "Parameters wire
format"). -/
def keyEnd : String := "sequence:tx:aperture:center_element:slice_end"

/-- The slice-begin value that would become live were the pending values
promoted now: the staged value if one is staged, the live value otherwise
(§4.4: promotion takes whichever bound is staged). -/
def effBegin (s : FileImpl) : Int := s.pendingSliceBegin.getD s.txBegin

/-- The slice-end value that would become live were the pending values
promoted now. -/
def effEnd (s : FileImpl) : Int := s.pendingSliceEnd.getD s.txEnd

/-- Modelled from the spec: `setParameters(params)` (§4.3/§6).  Validation
happens before any staging, so a rejected call leaves the engine unchanged
(§7: validation errors reject the whole call atomically).  Checks, in the
order the spec lists them: any unrecognized key → `UNKNOWN_PARAMETER`; any
value outside `[0, sequenceLength]` → `OUT_OF_RANGE`; a slice whose begin
would exceed its end after promotion → `INVALID_SLICE` (§3 invariant 2:
slice updates are rejected if inconsistent).  On success the given bounds
are staged into the pending optionals. -/
def setParameters (s : FileImpl) (params : List (String × Int)) :
    FileImpl × Option ArrusError :=
  if params.any (fun kv => !(kv.1 == keyBegin) && !(kv.1 == keyEnd)) then
    (s, some ArrusError.UNKNOWN_PARAMETER)
  else if params.any (fun kv => decide (kv.2 < 0 ∨ (s.sequenceLength : Int) < kv.2)) then
    (s, some ArrusError.OUT_OF_RANGE)
  else
    let b := (params.lookup keyBegin).orElse (fun _ => s.pendingSliceBegin)
    let e := (params.lookup keyEnd).orElse (fun _ => s.pendingSliceEnd)
    if e.getD s.txEnd < b.getD s.txBegin then
      (s, some ArrusError.INVALID_SLICE)
    else
      ({ s with pendingSliceBegin := b, pendingSliceEnd := e }, none)

/-- Modelled from the spec: promotion of the pending slice values into the
live `(txBegin, txEnd)` at the top of a producer iteration (§4.3 producer
protocol, §4.4).  Whichever bound is staged is promoted; pending slots are
cleared after promotion. -/
def promote (s : FileImpl) : FileImpl :=
  { s with txBegin := s.effBegin
           txEnd := s.effEnd
           pendingSliceBegin := none
           pendingSliceEnd := none }

/-- A frame of zeros of the engine's frame shape (§4.3, edge case
`txBegin == txEnd`). -/
def zeroFrame (s : FileImpl) : Frame := List.replicate s.frameSize 0

/-- Modelled from the spec: the producer's inner loop
`for op in [txBegin, txEnd): copy dataset[cursor] into the slot;
cursor = (cursor + 1) mod N; publish` (§4.3 producer protocol), emitting
`k` frames.  Returns the engine after the loop and the published frames in
publication order. -/
def emitFrames (s : FileImpl) : Nat → FileImpl × List Frame
  | 0 => (s, [])
  | Nat.succ k =>
    let f := s.dataset.getD s.cursor (zeroFrame s)
    let s1 := { s with cursor := (s.cursor + 1) % s.dataset.length }
    let r := emitFrames s1 k
    (r.1, f :: r.2)

/-- Modelled from the spec: the producer's handling of one trigger in MANUAL
mode (§4.3 producer protocol and `trigger()`): promote the pending slice
values, then emit `txEnd − txBegin` frames from the dataset, advancing the
cursor with wrap-around; when the slice is empty (`txBegin == txEnd`) still
reserve and publish one slot filled with zeros (§4.3 edge case). -/
def trigger (s : FileImpl) : FileImpl × List Frame :=
  let p := promote s
  let w := (p.txEnd - p.txBegin).toNat
  if w = 0 then (p, [zeroFrame p])
  else emitFrames p w

/-- Modelled from the spec: `N` successive triggers, concatenating the
published frames in publication order. -/
def runTriggers (s : FileImpl) : Nat → FileImpl × List Frame
  | 0 => (s, [])
  | Nat.succ n =>
    let r := trigger s
    let r2 := runTriggers r.1 n
    (r2.1, r.2 ++ r2.2)

/-- Modelled from the spec: the frames the downstream consumer observes,
given the frames published by the producer.  Per §4.2 ("Ordering. FIFO
across publishes") and §5 ("Frames reach the downstream observer in the
exact order produced"), the consumer observes exactly the published frames
in publication order. -/
def consumerObserved (published : List Frame) : List Frame := published

/-- The slice invariant of §3 (invariant 2): `txBegin ≤ txEnd`,
strengthened so that it is inductive for the staging mechanism: the values
the next promotion would make live are also ordered. -/
def sliceInvariant (s : FileImpl) : Prop :=
  s.txBegin ≤ s.txEnd ∧ effBegin s ≤ effEnd s

/-- A concrete three-frame dataset used to instantiate the theorems. -/
def dsW : List Frame := [[10], [20], [30]]

/-- A concrete engine: freshly constructed on `dsW`, then uploaded with a
scheme of sequence length 4, so its live slice is `(0, 4)`. -/
def engW : FileImpl := ((init dsW 1).upload 4).1

/-- The concrete engine `engW` after `start`. -/
def engWstarted : FileImpl := (engW.start).1

/-- A concrete started engine whose live slice is empty (`txBegin = txEnd =
3`) with no staged update. -/
def engWzero : FileImpl :=
  { init dsW 1 with
      state := EngineState.STARTED
      sequenceLength := 4
      txBegin := 3
      txEnd := 3
      schemeUploaded := true
      producerRunning := true
      consumerRunning := true }

end FileImpl

namespace Splitter

/-- Number of addressable rx channels per module (`common.h` doc: "128 rx
channels are addressable"). -/
def NCH : Nat := 128

/-- Number of physical rx channels per module (`common.h` doc: "us4oems have
32 rx channels"). -/
def NRX : Nat := 32

/-- Modelled from the spec: one tx/rx operation (§3 "TxRx Sequence"), for the
purposes of the splitter.  `rxAperture` is the bitset over the 128
addressable channels; all the other op parameters (tx aperture, delays,
sample window, pulse), which the splitter copies unchanged into every
sub-op, are abstracted into the opaque `txId`.  Following the glossary
("NOP op — a placeholder … emitting no energy"), a NOP is an op whose rx
aperture is empty. -/
structure TxRx where
  txId : Nat
  rxAperture : List Bool
deriving DecidableEq, Repr

/-- An op is a NOP when its rx aperture activates no channel. -/
def TxRx.isNOP (op : TxRx) : Bool := op.rxAperture.all (fun b => !b)

/-- The NOP op used for padding (§4.5 step 5). -/
def NOPop : TxRx := { txId := 0, rxAperture := List.replicate NCH false }

/-- Whether logical channel `c` is active in the op's rx aperture. -/
def activeIn (op : TxRx) (c : Nat) : Bool := op.rxAperture.getD c false

/-- The physical channel of logical channel `c` under a module's channel
mapping: `mapping[c] mod 32` (`common.h` doc: "each addressable rx channel
i is connected to us4oem channel i modulo 32", applied after the mapping,
§4.5 step 1–2). -/
def physOf (mapping : List Nat) (c : Nat) : Nat := mapping.getD c 0 % NRX

/-- Modelled from the spec: the bucket of physical channel `p` (§4.5
step 2) — the active logical channels mapping to `p`, in ascending logical
index. -/
def bucket (op : TxRx) (mapping : List Nat) (p : Nat) : List Nat :=
  (List.range NCH).filter (fun c => activeIn op c && (physOf mapping c == p))

/-- The size of the largest bucket of an op (§4.5 step 2). -/
def maxBucketSize (op : TxRx) (mapping : List Nat) : Nat :=
  ((List.range NRX).map (fun p => (bucket op mapping p).length)).foldr Nat.max 0

/-- Modelled from the spec: the number of sub-ops a logical op is split into
(§4.5 step 2: "The number of sub-ops needed is max_bucket_size"; §4.5 edge
cases: a collision-free or empty-aperture op passes through as a single
physical op, so at least one sub-op is always emitted). -/
def subOpCount (op : TxRx) (mapping : List Nat) : Nat :=
  Nat.max 1 (maxBucketSize op mapping)

/-- The position of logical channel `c` within its bucket (0-based);
sub-op `s` samples exactly the channels of bucket index `s` (§4.5 step 3,
tie-break: ascending logical index). -/
def bucketIndex (op : TxRx) (mapping : List Nat) (c : Nat) : Nat :=
  (bucket op mapping (physOf mapping c)).indexOf c

/-- Modelled from the spec: the rx aperture of sub-op `s` of a logical op
(§4.5 step 3): it activates, for each physical channel, the `s`-th logical
channel of that bucket; channels whose bucket is shorter are omitted. -/
def subAperture (op : TxRx) (mapping : List Nat) (s : Nat) : List Bool :=
  (List.range NCH).map (fun c => activeIn op c && (bucketIndex op mapping c == s))

/-- Sub-op `s` of a logical op: identical to the op except for its rx
aperture (§4.5 step 3). -/
def subOp (op : TxRx) (mapping : List Nat) (s : Nat) : TxRx :=
  { txId := op.txId, rxAperture := subAperture op mapping s }

/-- Modelled from the spec: the list of physical sub-ops a single logical op
is rewritten into (§4.5 step 3). -/
def splitOp (op : TxRx) (mapping : List Nat) : List TxRx :=
  (List.range (subOpCount op mapping)).map (subOp op mapping)

/-- The number of sub-ops module `m` needs for logical op `o`. -/
def neededSubOps (seqs : List (List TxRx)) (mappings : List (List Nat))
    (m o : Nat) : Nat :=
  subOpCount ((seqs.getD m []).getD o NOPop) (mappings.getD m [])

/-- Modelled from the spec: the common number of physical ops all modules
emit for logical op `o` — the maximum over the modules of the sub-ops each
needs (§4.5 step 5: shorter modules are padded so the sequences align). -/
def blockSize (seqs : List (List TxRx)) (mappings : List (List Nat))
    (o : Nat) : Nat :=
  ((List.range seqs.length).map (fun m => neededSubOps seqs mappings m o)).foldr Nat.max 0

/-- Modelled from the spec: the physical ops module `m` emits for logical op
`o`: its sub-ops, padded with NOP ops up to the common block size (§4.5
steps 3 and 5). -/
def moduleBlock (seqs : List (List TxRx)) (mappings : List (List Nat))
    (m o : Nat) : List TxRx :=
  let op := (seqs.getD m []).getD o NOPop
  let mp := mappings.getD m []
  splitOp op mp ++ List.replicate (blockSize seqs mappings o - subOpCount op mp) NOPop

/-- Modelled from the spec: the rewritten sequence of module `m`: the
concatenation of its per-logical-op blocks. -/
def outSequence (seqs : List (List TxRx)) (mappings : List (List Nat))
    (m : Nat) : List TxRx :=
  ((List.range (seqs.getD 0 []).length).map (moduleBlock seqs mappings m)).flatten

/-- The number of frame-producing physical ops module `m` emits for one
logical op: NOP ops produce no frame (§4.5 step 5: "NOP frame numbers are an
unused sentinel"). -/
def realCount (op : TxRx) (mapping : List Nat) : Nat :=
  if op.isNOP then 0 else subOpCount op mapping

/-- The number of physical frames a module produces for the logical ops
before op `o`. -/
def frameOffset (seq : List TxRx) (mapping : List Nat) (o : Nat) : Nat :=
  ((List.range o).map (fun j => realCount (seq.getD j NOPop) mapping)).sum

/-- Modelled from the spec: the `frames` tensor entry
`(module, input op, rx channel) → physical frame number` (§4.5 step 4): the
global physical frame index at which logical channel `c` is sampled —
`none` (the unused sentinel) when `c` is not sampled by the op. -/
def framesEntry (seq : List TxRx) (mapping : List Nat) (o c : Nat) :
    Option Nat :=
  let op := seq.getD o NOPop
  if activeIn op c then
    some (frameOffset seq mapping o + bucketIndex op mapping c)
  else none

/-- Modelled from the spec: the result of the splitter, mirroring
`SplitResult` of `common.h` (lines 17–26): the rewritten per-module
sequences and the `frames` and `channels` tensors, here as nested lists
indexed `module × input op × rx channel`.  The tx-delay-profile constants
and the logical-to-physical-op table are not modelled. -/
structure SplitResult where
  sequences : List (List TxRx)
  frames : List (List (List (Option Nat)))
  channels : List (List (List Nat))
deriving DecidableEq, Repr

/-- Modelled from the spec: `splitRxAperturesIfNecessary` (`common.h` lines
52–56, §4.5).  Validation first (§4.5 "Failure"): `INCONSISTENT_INPUT` if
the input sequences differ in length, `MAPPING_OUT_OF_RANGE` if any mapping
entry is ≥ 128.  Otherwise each logical op of each module is split into
collision-free sub-ops, blocks are padded with NOPs so all output sequences
share their length, and the `frames` / `channels` remap tensors are
recorded. -/
def splitRxAperturesIfNecessary (seqs : List (List TxRx))
    (mappings : List (List Nat)) : Except ArrusError SplitResult :=
  if !(seqs.all (fun sq => sq.length == (seqs.getD 0 []).length)) then
    Except.error ArrusError.INCONSISTENT_INPUT
  else if mappings.any (fun mp => mp.any (fun v => decide (NCH ≤ v))) then
    Except.error ArrusError.MAPPING_OUT_OF_RANGE
  else
    Except.ok
      { sequences := (List.range seqs.length).map (outSequence seqs mappings)
        frames := (List.range seqs.length).map (fun m =>
          (List.range (seqs.getD 0 []).length).map (fun o =>
            (List.range NCH).map (fun c =>
              framesEntry (seqs.getD m []) (mappings.getD m []) o c)))
        channels := (List.range seqs.length).map (fun m =>
          (List.range (seqs.getD 0 []).length).map (fun _o =>
            (List.range NCH).map (fun c => physOf (mappings.getD m []) c))) }

/-- The rx aperture activating exactly the channels of `cs`. -/
def apOf (cs : List Nat) : List Bool :=
  (List.range NCH).map (fun c => cs.contains c)

/-- The identity channel mapping (logical channel `c` maps to address
`c`). -/
def idMap : List Nat := List.range NCH

/-- The logical op of scenario S5: rx aperture `{0, 32, 64}`, all three
channels mapping to physical channel 0 under the identity mapping. -/
def opW : TxRx := { txId := 7, rxAperture := apOf [0, 32, 64] }

/-- A collision-free logical op with rx aperture `{0}` (scenario S6's
second module). -/
def opW1 : TxRx := { txId := 2, rxAperture := apOf [0] }

/-- The input of scenario S6: module 0 needs 3 sub-ops, module 1 needs 1. -/
def seqsS6 : List (List TxRx) := [[opW], [opW1]]

/-- The split result of scenario S6 (the input is accepted). -/
def resS6 : SplitResult :=
  ((splitRxAperturesIfNecessary seqsS6 [idMap, idMap]).toOption).getD ⟨[], [], []⟩

/-- A collision-free logical op with rx aperture `{0, 1}`: both channels map
to distinct physical channels, so the op passes through as one sub-op. -/
def opW2 : TxRx := { txId := 3, rxAperture := apOf [0, 1] }

/-- The split result of the single-module, collision-free input `[[opW2]]`. -/
def resW2 : SplitResult :=
  ((splitRxAperturesIfNecessary [[opW2]] [idMap]).toOption).getD ⟨[], [], []⟩

end Splitter

/-! Helper lemmas about lists. -/

theorem getD_range_map {α : Type} (f : Nat → α) (n c : Nat) (d : α) :
    ((List.range n).map f).getD c d = if c < n then f c else d := by
  rw [List.getD_eq_getElem?_getD, List.getElem?_map]
  by_cases h : c < n
  · rw [List.getElem?_range h]
    simp [h]
  · rw [List.getElem?_eq_none (by simpa using Nat.le_of_not_lt h)]
    simp [h]

theorem getD_default_irrel {α : Type} (l : List α) (i : Nat) (d1 d2 : α)
    (h : i < l.length) : l.getD i d1 = l.getD i d2 := by
  rw [List.getD_eq_getElem?_getD, List.getD_eq_getElem?_getD,
    List.getElem?_eq_getElem h]
  rfl

theorem getD_replicate_false (n c : Nat) :
    (List.replicate n false).getD c false = false := by
  induction n generalizing c with
  | zero => rfl
  | succ n ih =>
    cases c with
    | zero => rfl
    | succ c => simp [List.replicate_succ, ih c]

theorem mem_le_foldr_max (l : List Nat) (x : Nat) (hx : x ∈ l) :
    x ≤ l.foldr Nat.max 0 := by
  induction l with
  | nil => cases hx
  | cons a l ih =>
    rcases List.mem_cons.mp hx with h | h
    · subst h; exact Nat.le_max_left _ _
    · exact Nat.le_trans (ih h) (Nat.le_max_right _ _)

namespace FileImpl

/-! Basic lemmas about the engine model. -/

theorem promote_of_none (s : FileImpl) (h1 : s.pendingSliceBegin = none)
    (h2 : s.pendingSliceEnd = none) : promote s = s := by
  cases s
  simp only at h1 h2
  subst h1; subst h2
  rfl

theorem emitFrames_snd_length (k : Nat) :
    ∀ s : FileImpl, (emitFrames s k).2.length = k := by
  induction k with
  | zero => intro s; rfl
  | succ k ih => intro s; simp [emitFrames, ih]

theorem emitFrames_fst_only_cursor (k : Nat) :
    ∀ s : FileImpl, (emitFrames s k).1 =
      { s with cursor := (emitFrames s k).1.cursor } := by
  induction k with
  | zero => intro s; rfl
  | succ k ih =>
    intro s
    show (emitFrames { s with cursor := (s.cursor + 1) % s.dataset.length } k).1 = _
    rw [ih { s with cursor := (s.cursor + 1) % s.dataset.length }]
    rfl

theorem emitFrames_closed (k : Nat) :
    ∀ s : FileImpl, s.cursor < s.dataset.length →
      (emitFrames s k).1.cursor = (s.cursor + k) % s.dataset.length ∧
      (emitFrames s k).2 = (List.range k).map
        (fun j => s.dataset.getD ((s.cursor + j) % s.dataset.length) []) := by
  induction k with
  | zero =>
    intro s h
    exact ⟨by simp [emitFrames, Nat.mod_eq_of_lt h], rfl⟩
  | succ k ih =>
    intro s h
    have hN : 0 < s.dataset.length := Nat.lt_of_le_of_lt (Nat.zero_le _) h
    have h1 : ((s.cursor + 1) % s.dataset.length) < s.dataset.length :=
      Nat.mod_lt _ hN
    obtain ⟨ihc, ihl⟩ :=
      ih { s with cursor := (s.cursor + 1) % s.dataset.length } h1
    dsimp only at ihc ihl
    constructor
    · show (emitFrames { s with cursor := (s.cursor + 1) % s.dataset.length } k).1.cursor = _
      rw [ihc, Nat.mod_add_mod]
      congr 1
      omega
    · show s.dataset.getD s.cursor (zeroFrame s) ::
        (emitFrames { s with cursor := (s.cursor + 1) % s.dataset.length } k).2 = _
      rw [ihl, List.range_succ_eq_map, List.map_cons, List.map_map]
      congr 1
      · rw [getD_default_irrel _ _ _ [] h, Nat.add_zero, Nat.mod_eq_of_lt h]
      · refine List.map_congr_left (fun j _ => ?_)
        dsimp only [Function.comp]
        rw [Nat.mod_add_mod]
        congr 2
        omega

theorem trigger_fst_of_none (s : FileImpl) (h1 : s.pendingSliceBegin = none)
    (h2 : s.pendingSliceEnd = none) :
    (trigger s).1 = { s with cursor := (trigger s).1.cursor } := by
  unfold trigger
  rw [promote_of_none s h1 h2]
  dsimp only
  split
  · rfl
  · exact emitFrames_fst_only_cursor _ s

theorem trigger_snd_length_of_none (s : FileImpl)
    (h1 : s.pendingSliceBegin = none) (h2 : s.pendingSliceEnd = none) :
    (trigger s).2.length =
      if (s.txEnd - s.txBegin).toNat = 0 then 1
      else (s.txEnd - s.txBegin).toNat := by
  unfold trigger
  rw [promote_of_none s h1 h2]
  dsimp only
  split
  next hw => simp [hw]
  next hw => simp [hw, emitFrames_snd_length]

theorem runTriggers_length_of_none (n : Nat) :
    ∀ s : FileImpl, s.pendingSliceBegin = none → s.pendingSliceEnd = none →
      (runTriggers s n).2.length =
        n * (if (s.txEnd - s.txBegin).toNat = 0 then 1
             else (s.txEnd - s.txBegin).toNat) := by
  induction n with
  | zero => intro s _ _; simp [runTriggers]
  | succ n ih =>
    intro s h1 h2
    have hfst := trigger_fst_of_none s h1 h2
    have ihs := ih (trigger s).1 (by rw [hfst]; exact h1) (by rw [hfst]; exact h2)
    show ((trigger s).2 ++ (runTriggers (trigger s).1 n).2).length = _
    rw [List.length_append, trigger_snd_length_of_none s h1 h2, ihs]
    have htb : (trigger s).1.txBegin = s.txBegin := by rw [hfst]
    have hte : (trigger s).1.txEnd = s.txEnd := by rw [hfst]
    rw [htb, hte]
    ring

theorem trigger_fst_of_none_pos (s : FileImpl) (h1 : s.pendingSliceBegin = none)
    (h2 : s.pendingSliceEnd = none) (hc : s.cursor < s.dataset.length)
    (hw : (s.txEnd - s.txBegin).toNat ≠ 0) :
    (trigger s).1 =
      { s with cursor :=
          (s.cursor + (s.txEnd - s.txBegin).toNat) % s.dataset.length } := by
  unfold trigger
  rw [promote_of_none s h1 h2]
  dsimp only
  rw [if_neg hw]
  conv_lhs => rw [emitFrames_fst_only_cursor _ s]
  rw [(emitFrames_closed _ s hc).1]

theorem trigger_snd_of_none_pos (s : FileImpl) (h1 : s.pendingSliceBegin = none)
    (h2 : s.pendingSliceEnd = none) (hc : s.cursor < s.dataset.length)
    (hw : (s.txEnd - s.txBegin).toNat ≠ 0) :
    (trigger s).2 = (List.range ((s.txEnd - s.txBegin).toNat)).map
      (fun j => s.dataset.getD ((s.cursor + j) % s.dataset.length) []) := by
  unfold trigger
  rw [promote_of_none s h1 h2]
  dsimp only
  rw [if_neg hw]
  exact (emitFrames_closed _ s hc).2

theorem runTriggers_closed_pos (n : Nat) :
    ∀ s : FileImpl, s.pendingSliceBegin = none → s.pendingSliceEnd = none →
      s.cursor < s.dataset.length → (s.txEnd - s.txBegin).toNat ≠ 0 →
      (runTriggers s n).1 =
        { s with cursor :=
            (s.cursor + n * (s.txEnd - s.txBegin).toNat) % s.dataset.length } ∧
      (runTriggers s n).2 =
        (List.range (n * (s.txEnd - s.txBegin).toNat)).map
          (fun j => s.dataset.getD ((s.cursor + j) % s.dataset.length) []) := by
  induction n with
  | zero =>
    intro s h1 h2 hc hw
    constructor
    · show s = _
      rw [Nat.zero_mul, Nat.add_zero, Nat.mod_eq_of_lt hc]
    · show ([] : List Frame) = _
      rw [Nat.zero_mul]
      rfl
  | succ n ih =>
    intro s h1 h2 hc hw
    have hN : 0 < s.dataset.length := Nat.lt_of_le_of_lt (Nat.zero_le _) hc
    have hfst := trigger_fst_of_none_pos s h1 h2 hc hw
    have hc1 : ((s.cursor + (s.txEnd - s.txBegin).toNat) % s.dataset.length) <
        s.dataset.length := Nat.mod_lt _ hN
    obtain ⟨ih1, ih2⟩ :=
      ih { s with cursor :=
            (s.cursor + (s.txEnd - s.txBegin).toNat) % s.dataset.length }
        h1 h2 hc1 hw
    dsimp only at ih1 ih2
    constructor
    · show (runTriggers (trigger s).1 n).1 = _
      rw [hfst, ih1, Nat.mod_add_mod]
      congr 2
      ring
    · show (trigger s).2 ++ (runTriggers (trigger s).1 n).2 = _
      rw [trigger_snd_of_none_pos s h1 h2 hc hw, hfst, ih2]
      have hmul : (n + 1) * (s.txEnd - s.txBegin).toNat =
          (s.txEnd - s.txBegin).toNat + n * (s.txEnd - s.txBegin).toNat := by
        ring
      rw [hmul, List.range_add, List.map_append, List.map_map]
      congr 1
      refine List.map_congr_left (fun j _ => ?_)
      dsimp only [Function.comp]
      rw [Nat.mod_add_mod]
      congr 2
      omega

theorem trigger_promote_eq (s : FileImpl) : trigger s = trigger (promote s) := by
  unfold trigger
  rw [promote_of_none (promote s) rfl rfl]

theorem runTriggers_snd_promote (s : FileImpl) (n : Nat) :
    (runTriggers s n).2 = (runTriggers (promote s) n).2 := by
  cases n with
  | zero => rfl
  | succ n =>
    show (trigger s).2 ++ (runTriggers (trigger s).1 n).2 =
      (trigger (promote s)).2 ++ (runTriggers (trigger (promote s)).1 n).2
    rw [trigger_promote_eq s]

theorem stop_state (s : FileImpl) : (stop s).state = EngineState.STOPPED := by
  unfold stop
  split
  · rfl
  next h =>
    cases hs : s.state
    · exact absurd hs h
    · rfl

/-- C1: after `upload; start; N triggers; stop`, the downstream consumer
observes the producer's published frames in publication order, their number
is exactly `N × (txEnd − txBegin) = N × L` when the slice width `L` is
positive and exactly `N` when it is zero, and the engine ends STOPPED. -/
theorem run_frame_count (ds : List Frame) (fsz L N : Nat) :
    consumerObserved (runTriggers ((((init ds fsz).upload L).1.start).1) N).2 =
      (runTriggers ((((init ds fsz).upload L).1.start).1) N).2 ∧
    (consumerObserved
        (runTriggers ((((init ds fsz).upload L).1.start).1) N).2).length =
      (if 0 < L then N * L else N) ∧
    (stop (runTriggers ((((init ds fsz).upload L).1.start).1) N).1).state =
      EngineState.STOPPED := by
  refine ⟨rfl, ?_, stop_state _⟩
  show (runTriggers ((((init ds fsz).upload L).1.start).1) N).2.length = _
  rw [runTriggers_length_of_none N _ rfl rfl]
  show N * (if ((L : Int) - 0).toNat = 0 then 1 else ((L : Int) - 0).toNat) = _
  rw [Int.sub_zero, Int.toNat_natCast]
  rcases Nat.eq_zero_or_pos L with h | h
  · simp [h]
  · simp [Nat.pos_iff_ne_zero.mp h, h]

/-- C2 (amended): during a run of triggers whose effective slice width is
positive, the `k`-th frame the consumer observes (counting from the cursor
position at the start of the run) is
`dataset[(startCursor + k) mod datasetLength]`; in particular the cursor
wraps to frame 0 mid-burst when the dataset is shorter than the slice,
without skipping frames.  (When the slice width is zero the trigger
publishes a zero-filled frame instead, which is why the positivity
condition is needed.) -/
theorem consumed_frame_contents (s : FileImpl) (n k : Nat)
    (hc : s.cursor < s.dataset.length)
    (hw : 0 < (effEnd s - effBegin s).toNat)
    (hk : k < (runTriggers s n).2.length) :
    (consumerObserved (runTriggers s n).2).getD k [] =
      s.dataset.getD ((s.cursor + k) % s.dataset.length) [] := by
  obtain ⟨-, hsnd⟩ :=
    runTriggers_closed_pos n (promote s) rfl rfl hc
      (Nat.pos_iff_ne_zero.mp hw)
  show (runTriggers s n).2.getD k [] = _
  rw [runTriggers_snd_promote s n] at hk ⊢
  rw [hsnd] at hk ⊢
  rw [List.length_map, List.length_range] at hk
  rw [getD_range_map, if_pos hk]
  rfl

/-- Counterexample for C2 as literally stated: in a run whose live slice is
empty (`engWzero`, slice `(3, 3)`), the frame handed to the consumer is the
zero frame, not `dataset[(startCursor + 0) mod datasetLength]`. -/
theorem consumed_frame_contents_cex :
    (consumerObserved (runTriggers engWzero 1).2).getD 0 [] ≠
      engWzero.dataset.getD
        ((engWzero.cursor + 0) % engWzero.dataset.length) [] := by
  decide

/-- Witness for C2 at scenario S2: dataset of 3 frames, slice `(0, 4)`, one
trigger; the fourth consumed frame (`k = 3`) is
`dataset[(0 + 3) mod 3] = dataset[0]`, i.e. the cursor wrapped
mid-burst. -/
theorem consumed_frame_contents_witness :
    (consumerObserved (runTriggers engWstarted 1).2).getD 3 [] =
      engWstarted.dataset.getD
        ((engWstarted.cursor + 3) % engWstarted.dataset.length) [] :=
  consumed_frame_contents engWstarted 1 3 (by decide) (by decide) (by decide)

/-- C4: `setParameters` rejects any unrecognized key with
`UNKNOWN_PARAMETER`, any value outside `[0, sequenceLength]` with
`OUT_OF_RANGE`, and a staged begin exceeding the staged end with
`INVALID_SLICE`; in every error case the engine state (staged and live
slice included) is unchanged — the rejection is atomic. -/
theorem setParameters_validation (s : FileImpl) (ps : List (String × Int)) :
    (ps.any (fun kv => !(kv.1 == keyBegin) && !(kv.1 == keyEnd)) = true →
      setParameters s ps = (s, some ArrusError.UNKNOWN_PARAMETER)) ∧
    (ps.any (fun kv => !(kv.1 == keyBegin) && !(kv.1 == keyEnd)) = false →
      ps.any (fun kv => decide (kv.2 < 0 ∨ (s.sequenceLength : Int) < kv.2)) = true →
      setParameters s ps = (s, some ArrusError.OUT_OF_RANGE)) ∧
    (ps.any (fun kv => !(kv.1 == keyBegin) && !(kv.1 == keyEnd)) = false →
      ps.any (fun kv => decide (kv.2 < 0 ∨ (s.sequenceLength : Int) < kv.2)) = false →
      ((ps.lookup keyEnd).orElse (fun _ => s.pendingSliceEnd)).getD s.txEnd <
        ((ps.lookup keyBegin).orElse (fun _ => s.pendingSliceBegin)).getD s.txBegin →
      setParameters s ps = (s, some ArrusError.INVALID_SLICE)) ∧
    (∀ e, (setParameters s ps).2 = some e → (setParameters s ps).1 = s) := by
  refine ⟨?_, ?_, ?_, ?_⟩
  · intro hA
    unfold setParameters
    rw [if_pos hA]
  · intro hA hB
    unfold setParameters
    dsimp only
    rw [if_neg (by rw [hA]; exact Bool.false_ne_true), if_pos hB]
  · intro hA hB hC
    unfold setParameters
    dsimp only
    rw [if_neg (by rw [hA]; exact Bool.false_ne_true), if_neg (by rw [hB]; exact Bool.false_ne_true), if_pos hC]
  · intro e he
    by_cases hA : ps.any (fun kv => !(kv.1 == keyBegin) && !(kv.1 == keyEnd)) = true
    · unfold setParameters
      rw [if_pos hA]
    · by_cases hB : ps.any (fun kv => decide (kv.2 < 0 ∨ (s.sequenceLength : Int) < kv.2)) = true
      · unfold setParameters
        dsimp only
        rw [if_neg hA, if_pos hB]
      · by_cases hC : ((ps.lookup keyEnd).orElse (fun _ => s.pendingSliceEnd)).getD s.txEnd <
            ((ps.lookup keyBegin).orElse (fun _ => s.pendingSliceBegin)).getD s.txBegin
        · unfold setParameters
          dsimp only
          rw [if_neg hA, if_neg hB, if_pos hC]
        · exfalso
          have hnone : (setParameters s ps).2 = none := by
            unfold setParameters
            dsimp only
            rw [if_neg hA, if_neg hB, if_neg hC]
          rw [hnone] at he
          exact Option.noConfusion he

/-- Witness for C4: concrete rejected calls on `engW` (sequence length 4):
an unrecognized key, a value out of `[0, 4]`, and `begin = 3 > end = 1`,
each returning the specified error with the engine unchanged. -/
theorem setParameters_validation_witness :
    setParameters engW [("bogus", 0)] = (engW, some ArrusError.UNKNOWN_PARAMETER) ∧
    setParameters engW [(keyBegin, 99)] = (engW, some ArrusError.OUT_OF_RANGE) ∧
    setParameters engW [(keyBegin, 3), (keyEnd, 1)] =
      (engW, some ArrusError.INVALID_SLICE) :=
  ⟨(setParameters_validation engW _).1 (by decide),
   (setParameters_validation engW _).2.1 (by decide) (by decide),
   (setParameters_validation engW _).2.2.1 (by decide) (by decide) (by decide)⟩

/-- C5: `stop` on an already-STOPPED engine is a no-op (no thread is
created or joined, the state and all fields are unchanged), `stop` is
idempotent, the state after `stop` is always STOPPED, and `stop` on a
STARTED engine returns only after both worker threads have exited. -/
theorem stop_idempotent (s : FileImpl) :
    (s.state = EngineState.STOPPED → stop s = s) ∧
    stop (stop s) = stop s ∧
    (stop s).state = EngineState.STOPPED ∧
    (s.state = EngineState.STARTED →
      (stop s).producerRunning = false ∧ (stop s).consumerRunning = false) := by
  refine ⟨?_, ?_, stop_state s, ?_⟩
  · intro h
    simp [stop, h]
  · by_cases h : s.state = EngineState.STARTED
    · simp [stop, h]
    · simp [stop, h]
  · intro h
    simp [stop, h]

/-- Witness for C5: `stop` leaves a freshly constructed (STOPPED) engine
untouched, and is idempotent on the started engine `engWstarted`. -/
theorem stop_idempotent_witness :
    stop (init dsW 1) = init dsW 1 ∧
    stop (stop engWstarted) = stop engWstarted ∧
    (stop engWstarted).producerRunning = false :=
  ⟨(stop_idempotent (init dsW 1)).1 rfl,
   (stop_idempotent engWstarted).2.1,
   ((stop_idempotent engWstarted).2.2.2 rfl).1⟩

/-- C8: when the live slice is empty (`txBegin = txEnd`) and nothing is
staged, each trigger publishes exactly one zero-filled frame (the dataset
cursor does not move), so after `n` triggers the consumer observes exactly
`n` zero-filled frames. -/
theorem empty_slice_zero_frames (s : FileImpl) (n : Nat)
    (h1 : s.pendingSliceBegin = none) (h2 : s.pendingSliceEnd = none)
    (h0 : s.txBegin = s.txEnd) :
    (trigger s).2 = [zeroFrame s] ∧ (trigger s).1 = s ∧
    consumerObserved (runTriggers s n).2 = List.replicate n (zeroFrame s) := by
  have hcond : (s.txEnd - s.txBegin).toNat = 0 := by
    rw [h0, Int.sub_self]
    rfl
  have htr : trigger s = (s, [zeroFrame s]) := by
    unfold trigger
    rw [promote_of_none s h1 h2]
    dsimp only
    rw [if_pos hcond]
  refine ⟨by rw [htr], by rw [htr], ?_⟩
  show (runTriggers s n).2 = _
  induction n with
  | zero => rfl
  | succ n ih =>
    show ((trigger s).2 ++ (runTriggers (trigger s).1 n).2) = _
    rw [htr]
    dsimp only
    rw [ih]
    rfl

/-- Witness for C8: the concrete started engine `engWzero`, whose live
slice is `(3, 3)`: two triggers publish exactly two zero-filled frames. -/
theorem empty_slice_zero_frames_witness :
    (trigger engWzero).2 = [zeroFrame engWzero] ∧ (trigger engWzero).1 = engWzero ∧
    consumerObserved (runTriggers engWzero 2).2 =
      List.replicate 2 (zeroFrame engWzero) :=
  empty_slice_zero_frames engWzero 2 rfl rfl rfl

/-- C9: the invariant `txBegin ≤ txEnd` (together with its staged
counterpart, so that promoting whichever bound is staged can never make
`txBegin` exceed `txEnd`) is established by `upload` and preserved by every
operation: `setParameters` (which rejects inconsistent updates), `trigger`
(which promotes the pending values), `start` and `stop`. -/
theorem slice_invariant_preserved (s : FileImpl) (L : Nat)
    (ps : List (String × Int)) (h : sliceInvariant s) :
    sliceInvariant ((upload s L).1) ∧
    sliceInvariant ((setParameters s ps).1) ∧
    sliceInvariant ((start s).1) ∧
    sliceInvariant (stop s) ∧
    sliceInvariant ((trigger s).1) := by
  refine ⟨?_, ?_, ?_, ?_, ?_⟩
  · unfold upload
    split
    · exact ⟨Int.natCast_nonneg L, Int.natCast_nonneg L⟩
    · exact h
  · by_cases hA : ps.any (fun kv => !(kv.1 == keyBegin) && !(kv.1 == keyEnd)) = true
    · have hfst : (setParameters s ps).1 = s := by
        unfold setParameters
        rw [if_pos hA]
      rw [hfst]
      exact h
    · by_cases hB : ps.any (fun kv => decide (kv.2 < 0 ∨ (s.sequenceLength : Int) < kv.2)) = true
      · have hfst : (setParameters s ps).1 = s := by
          unfold setParameters
          dsimp only
          rw [if_neg hA, if_pos hB]
        rw [hfst]
        exact h
      · by_cases hC : ((ps.lookup keyEnd).orElse (fun _ => s.pendingSliceEnd)).getD s.txEnd <
            ((ps.lookup keyBegin).orElse (fun _ => s.pendingSliceBegin)).getD s.txBegin
        · have hfst : (setParameters s ps).1 = s := by
            unfold setParameters
            dsimp only
            rw [if_neg hA, if_neg hB, if_pos hC]
          rw [hfst]
          exact h
        · have hok : (setParameters s ps).1 =
              { s with
                  pendingSliceBegin :=
                    (ps.lookup keyBegin).orElse (fun _ => s.pendingSliceBegin)
                  pendingSliceEnd :=
                    (ps.lookup keyEnd).orElse (fun _ => s.pendingSliceEnd) } := by
            unfold setParameters
            dsimp only
            rw [if_neg hA, if_neg hB, if_neg hC]
          rw [hok]
          exact ⟨h.1, Int.not_lt.mp hC⟩
  · unfold start
    split
    · exact h
    · split
      · exact h
      · exact h
  · unfold stop
    split
    · exact h
    · exact h
  · unfold trigger
    dsimp only
    split
    · exact ⟨h.2, h.2⟩
    · rw [emitFrames_fst_only_cursor]
      exact ⟨h.2, h.2⟩

/-- Witness for C9: the invariant instantiated at the concrete uploaded
engine `engW` with a staged update `[(keyBegin, 1)]`. -/
theorem slice_invariant_preserved_witness :
    sliceInvariant ((upload engW 4).1) ∧
    sliceInvariant ((trigger engW).1) :=
  ⟨(slice_invariant_preserved engW 4 [(keyBegin, 1)] ⟨by decide, by decide⟩).1,
   (slice_invariant_preserved engW 4 [(keyBegin, 1)] ⟨by decide, by decide⟩).2.2.2.2⟩

/-- C10: a freshly constructed `FileImpl` engine is STOPPED with both
pending slice bounds empty, so it satisfies the precondition of `upload`
(which therefore succeeds) and has no staged slice update waiting to be
promoted. -/
theorem init_stopped_no_pending (ds : List Frame) (fsz L : Nat) :
    (init ds fsz).state = EngineState.STOPPED ∧
    (init ds fsz).pendingSliceBegin = none ∧
    (init ds fsz).pendingSliceEnd = none ∧
    ((init ds fsz).upload L).2 = none :=
  ⟨rfl, rfl, rfl, rfl⟩

end FileImpl

namespace Splitter

/-! Basic lemmas about the splitter model. -/

theorem activeIn_NOPop (c : Nat) : activeIn NOPop c = false :=
  getD_replicate_false NCH c

theorem activeIn_subOp (op : TxRx) (mp : List Nat) (s c : Nat) :
    activeIn (subOp op mp s) c = true ↔
      c < NCH ∧ activeIn op c = true ∧ bucketIndex op mp c = s := by
  show (subAperture op mp s).getD c false = true ↔ _
  rw [subAperture, getD_range_map]
  by_cases h : c < NCH
  · rw [if_pos h]
    simp [h]
  · rw [if_neg h]
    simp [h]

theorem mem_bucket (op : TxRx) (mp : List Nat) (p c : Nat) :
    c ∈ bucket op mp p ↔
      c < NCH ∧ activeIn op c = true ∧ physOf mp c = p := by
  simp [bucket, List.mem_filter, and_assoc]

theorem split_ok_sequences (seqs : List (List TxRx))
    (mappings : List (List Nat)) (res : SplitResult)
    (hok : splitRxAperturesIfNecessary seqs mappings = Except.ok res) :
    res.sequences = (List.range seqs.length).map (outSequence seqs mappings) := by
  unfold splitRxAperturesIfNecessary at hok
  split at hok
  · exact Except.noConfusion hok
  · split at hok
    · exact Except.noConfusion hok
    · injection hok with h
      rw [← h]

theorem splitOp_length (op : TxRx) (mp : List Nat) :
    (splitOp op mp).length = subOpCount op mp := by
  simp [splitOp]

theorem neededSubOps_le_blockSize (seqs : List (List TxRx))
    (mappings : List (List Nat)) (m o : Nat) (hm : m < seqs.length) :
    neededSubOps seqs mappings m o ≤ blockSize seqs mappings o :=
  mem_le_foldr_max _ _
    (List.mem_map.mpr ⟨m, List.mem_range.mpr hm, rfl⟩)

theorem moduleBlock_length (seqs : List (List TxRx))
    (mappings : List (List Nat)) (m o : Nat) (hm : m < seqs.length) :
    (moduleBlock seqs mappings m o).length = blockSize seqs mappings o := by
  have hle := neededSubOps_le_blockSize seqs mappings m o hm
  simp only [moduleBlock, List.length_append, splitOp_length,
    List.length_replicate]
  have : subOpCount ((seqs.getD m []).getD o NOPop) (mappings.getD m []) =
      neededSubOps seqs mappings m o := rfl
  rw [this]
  omega

theorem outSequence_length (seqs : List (List TxRx))
    (mappings : List (List Nat)) (m : Nat) (hm : m < seqs.length) :
    (outSequence seqs mappings m).length =
      ((List.range (seqs.getD 0 []).length).map (blockSize seqs mappings)).sum := by
  simp only [outSequence, List.length_flatten, List.map_map]
  congr 1
  refine List.map_congr_left (fun o _ => ?_)
  exact moduleBlock_length seqs mappings m o hm

/-- C3: for every input the splitter accepts, no output rx-aperture claims
one physical channel twice: two distinct logical channels active in the
same output op of module `m` have distinct physical assignments
`mapping[c] mod 32`. -/
theorem split_no_duplicate_physical (seqs : List (List TxRx))
    (mappings : List (List Nat)) (res : SplitResult) (m : Nat) (op : TxRx)
    (c1 c2 : Nat)
    (hok : splitRxAperturesIfNecessary seqs mappings = Except.ok res)
    (hm : op ∈ res.sequences.getD m [])
    (h1 : activeIn op c1 = true) (h2 : activeIn op c2 = true)
    (hne : c1 ≠ c2) :
    physOf (mappings.getD m []) c1 ≠ physOf (mappings.getD m []) c2 := by
  rw [split_ok_sequences seqs mappings res hok, getD_range_map] at hm
  by_cases hmlt : m < seqs.length
  · rw [if_pos hmlt] at hm
    obtain ⟨blk, hblk, hopblk⟩ := List.mem_flatten.mp hm
    obtain ⟨o, -, rfl⟩ := List.mem_map.mp hblk
    simp only [moduleBlock] at hopblk
    rcases List.mem_append.mp hopblk with hsplit | hpad
    · simp only [splitOp] at hsplit
      obtain ⟨sIdx, -, rfl⟩ := List.mem_map.mp hsplit
      intro heq
      obtain ⟨hc1lt, ha1, hb1⟩ := (activeIn_subOp _ _ _ _).mp h1
      obtain ⟨hc2lt, ha2, hb2⟩ := (activeIn_subOp _ _ _ _).mp h2
      have hm1 : c1 ∈ bucket ((seqs.getD m []).getD o NOPop)
          (mappings.getD m []) (physOf (mappings.getD m []) c1) :=
        (mem_bucket _ _ _ _).mpr ⟨hc1lt, ha1, rfl⟩
      have hm2 : c2 ∈ bucket ((seqs.getD m []).getD o NOPop)
          (mappings.getD m []) (physOf (mappings.getD m []) c1) :=
        (mem_bucket _ _ _ _).mpr ⟨hc2lt, ha2, heq.symm⟩
      apply hne
      apply (List.indexOf_inj hm1 hm2).mp
      simp only [bucketIndex] at hb1 hb2
      rw [← heq] at hb2
      rw [hb1, hb2]
    · rw [List.eq_of_mem_replicate hpad, activeIn_NOPop] at h1
      exact Bool.noConfusion h1
  · rw [if_neg hmlt] at hm
    cases hm

/-- Witness for C3: the collision-free input `[[opW2]]` (rx aperture
`{0, 1}`, identity mapping) is accepted, its single output op activates
channels 0 and 1, and their physical assignments differ. -/
theorem split_no_duplicate_physical_witness :
    physOf idMap 0 ≠ physOf idMap 1 :=
  split_no_duplicate_physical [[opW2]] [idMap] resW2 0 (subOp opW2 idMap 0)
    0 1 rfl (by decide) (by decide) (by decide) (by decide)

/-- C6: for every input the splitter accepts, all output per-module
sequences share the same length, and within each per-logical-op block a
module needing fewer sub-ops than the block size has the trailing
positions filled with NOP ops. -/
theorem split_sequences_aligned (seqs : List (List TxRx))
    (mappings : List (List Nat)) (res : SplitResult) (m1 m2 : Nat)
    (hok : splitRxAperturesIfNecessary seqs mappings = Except.ok res)
    (hm1 : m1 < res.sequences.length) (hm2 : m2 < res.sequences.length) :
    (res.sequences.getD m1 []).length = (res.sequences.getD m2 []).length ∧
    (∀ m o, ∀ op ∈ (moduleBlock seqs mappings m o).drop
        (neededSubOps seqs mappings m o), op = NOPop) := by
  constructor
  · rw [split_ok_sequences seqs mappings res hok] at hm1 hm2 ⊢
    rw [List.length_map, List.length_range] at hm1 hm2
    rw [getD_range_map, getD_range_map, if_pos hm1, if_pos hm2,
      outSequence_length seqs mappings m1 hm1,
      outSequence_length seqs mappings m2 hm2]
  · intro m o op hop
    have hlen : (splitOp ((seqs.getD m []).getD o NOPop)
        (mappings.getD m [])).length = neededSubOps seqs mappings m o := by
      rw [splitOp_length]
      rfl
    simp only [moduleBlock] at hop
    rw [← hlen, List.drop_left] at hop
    exact List.eq_of_mem_replicate hop

/-- Witness for C6 at scenario S6: two modules, module 0 needing 3 sub-ops
and module 1 needing 1; both output sequences have length 3 and module 1's
block ends in two NOP ops. -/
theorem split_sequences_aligned_witness :
    (resS6.sequences.getD 0 []).length = (resS6.sequences.getD 1 []).length ∧
    (resS6.sequences.getD 0 []).length = 3 ∧
    (moduleBlock seqsS6 [idMap, idMap] 1 0).drop
      (neededSubOps seqsS6 [idMap, idMap] 1 0) = [NOPop, NOPop] :=
  ⟨(split_sequences_aligned seqsS6 [idMap, idMap] resS6 0 1 rfl (by decide)
      (by decide)).1,
   by decide, by decide⟩

/-- C7: scenario S5 — a single module whose logical op has rx aperture
`{0, 32, 64}` (all mapping to physical channel 0 under the identity
mapping) is split into 3 physical ops activating `{0}`, `{32}`, `{64}` in
ascending logical order, and the frames tensor records
`frames[0,0,0] = 0`, `frames[0,0,32] = 1`, `frames[0,0,64] = 2`. -/
theorem split_bucket_order_s5 :
    ∃ res, splitRxAperturesIfNecessary [[opW]] [idMap] = Except.ok res ∧
      res.sequences = [[{ txId := 7, rxAperture := apOf [0] },
        { txId := 7, rxAperture := apOf [32] },
        { txId := 7, rxAperture := apOf [64] }]] ∧
      ((res.frames.getD 0 []).getD 0 []).getD 0 none = some 0 ∧
      ((res.frames.getD 0 []).getD 0 []).getD 32 none = some 1 ∧
      ((res.frames.getD 0 []).getD 0 []).getD 64 none = some 2 := by
  refine ⟨_, rfl, ?_, ?_, ?_, ?_⟩ <;> decide

end Splitter

end Arrus
